import Mathlib

/-!
Verification of the self-update pipeline and self-heal reporter of the
`her-serve` backend (`app/self_update.py`, `app/self_heal.py`, `app/config.py`).

The embedding models:
- resolved absolute paths as lists of name components;
- the filesystem as an association list from paths to file contents
  (only regular files are modelled; each filesystem operation either
  succeeds completely or raises, per a fault oracle);
- external command execution (`subprocess.run`) through an oracle that
  supplies, for each command the pipeline can run, either a raised
  exception message or a captured (returncode, stdout, stderr) triple;
- the system state as the filesystem plus a log of invoked commands and a
  trace of attempted filesystem operations.

Exceptions in the Python source are modelled as `Option String` /
`Except String` results threaded explicitly; the orchestrator's
`try/except` block becomes explicit propagation into `exnHandler`, which
mirrors the source's `except Exception` clause.
-/

deriving instance DecidableEq for Except

namespace HerServe

/-- A resolved absolute path, as its list of name components
(`["home", "her", "app.py"]` stands for `/home/her/app.py`). -/
abbrev Path := List String

/-- Rendering of a resolved path, as Python's `str(target_path)` renders an
absolute `pathlib.Path`. -/
def pathStr (p : Path) : String :=
  "/" ++ String.intercalate "/" p

/-- Models `(ROOT_DIR / rel_path).resolve()` for a relative `rel_path` given
as components: `"."` is dropped, `".."` pops one component (staying at the
filesystem root when already there), any other component is appended. -/
def resolveComponents (base : List String) (comps : List String) : List String :=
  comps.foldl
    (fun acc c =>
      if c = "." then acc
      else if c = ".." then acc.dropLast
      else acc ++ [c])
    base

/-- All proper ancestors of a path, mirroring `pathlib.Path.parents`
(the parents of `/a/b` are `/a` and `/`, i.e. the proper component-list
ancestors). -/
def strictAncestors : Path → List Path
  | [] => []
  | a :: rest => [] :: (strictAncestors rest).map (a :: ·)

/-- Models `target_path.with_suffix(target_path.suffix + ".bak")`: for an
ordinary final file name this appends `".bak"` to the final component. -/
def mkBackupPath : Path → Path
  | [] => []
  | [c] => [c ++ ".bak"]
  | c :: rest => c :: mkBackupPath rest

/-- The filesystem: an association list from paths to file contents. -/
abbrev FileSystem := List (Path × String)

/-- Content of the file at `p`, `none` when no file exists there. -/
def fsLookup : FileSystem → Path → Option String
  | [], _ => none
  | (q, d) :: rest, p => if q = p then some d else fsLookup rest p

/-- Writing content `c` at path `p` (full replacement, creating the entry
when absent). -/
def fsWrite : FileSystem → Path → String → FileSystem
  | [], p, c => [(p, c)]
  | (q, d) :: rest, p, c =>
      if q = p then (p, c) :: rest else (q, d) :: fsWrite rest p c

/-- Captured output of one external process run (`subprocess.run` with
`capture_output=True, text=True`). -/
structure CmdOut where
  returncode : Int
  stdout : String
  stderr : String
deriving DecidableEq, Repr

/-- The dictionary built by `run_cmd`:
`{"cmd": " ".join(cmd), "returncode": …, "stdout": …, "stderr": …}`. -/
structure CmdResult where
  cmd : String
  returncode : Int
  stdout : String
  stderr : String
deriving DecidableEq, Repr

/-- The dictionary returned by `run_tests`: the `run_cmd` result plus the
derived field `success = (returncode == 0)`. -/
structure TestResult where
  run : CmdResult
  success : Bool
deriving DecidableEq, Repr

/-- The dictionary returned by `git_commit_and_push`: overall success flag,
the failing step's command text (absent on success), and the list of
`CmdResult`s of the steps executed so far. -/
structure GitResult where
  success : Bool
  step : Option String
  log : List CmdResult
deriving DecidableEq, Repr

/-- The tagged outcome of `apply_file_update`. Each constructor corresponds
to one of the return-dictionary shapes of the source:
`{"status":"error","reason":"file_not_found"|"outside_project_root"|"exception","detail":…}`,
`{"status":"tests_failed","tests":…}`, `{"status":"git_failed","git":…}`,
`{"status":"ok","tests":…,"git":…}`. -/
inductive UpdateResult where
  | fileNotFound (detail : String)
  | outsideProjectRoot (detail : String)
  | exceptionErr (detail : String)
  | testsFailed (tests : TestResult)
  | gitFailed (git : GitResult)
  | ok (tests : TestResult) (git : GitResult)
deriving DecidableEq, Repr

/-- The six outcome tags of the spec's `UpdateResult` taxonomy. -/
def UpdateResult.tag : UpdateResult → String
  | .fileNotFound _ => "file_not_found"
  | .outsideProjectRoot _ => "outside_project_root"
  | .exceptionErr _ => "exception"
  | .testsFailed _ => "tests_failed"
  | .gitFailed _ => "git_failed"
  | .ok _ _ => "ok"

/-- Whether an outcome is the success outcome. -/
def UpdateResult.isOk : UpdateResult → Bool
  | .ok _ _ => true
  | _ => false

/-- Behaviour of one external command, supplied by the oracle: the launch
either raises (executable missing, permission denied, …) or returns a
captured result; a non-zero exit is data, not a raised fault. -/
inductive CmdBehavior where
  | raises (msg : String)
  | returns (out : CmdOut)
deriving DecidableEq, Repr

/-- One attempted filesystem operation, recorded in the trace with whether
it succeeded (`shutil.copy2` or `Path.write_text`). -/
inductive FsOp where
  | copyAttempt (src dst : Path) (ok : Bool)
  | writeAttempt (p : Path) (ok : Bool)
deriving DecidableEq, Repr

/-- The mutable world threaded through a run: the filesystem, the log of
invoked external commands (joined command text, in invocation order), and
the trace of attempted filesystem operations. -/
structure SysState where
  fs : FileSystem
  cmdLog : List String
  fsTrace : List FsOp
deriving DecidableEq, Repr

/-- The environment/fault oracle of one `apply_file_update` run: for each
filesystem operation the source can attempt, `none` (succeeds) or
`some msg` (raises with text `msg`); and for each external command the
source can run, its behaviour. -/
structure Oracle where
  backupFault : Option String
  writeFault : Option String
  restoreTestsFault : Option String
  restoreGitFault : Option String
  restoreExnFault : Option String
  pytestRun : CmdBehavior
  gitAddRun : CmdBehavior
  gitCommitRun : CmdBehavior
  gitPushRun : CmdBehavior
deriving DecidableEq, Repr

/-- Configuration of the pipeline. `autoUpdateEnabled` embeds
`config.AUTO_UPDATE_ENABLED` (src/app/config.py line 24). Modelled from the
spec: `config.PROJECT_ROOT` and `config.UPDATE_BRANCH` are referenced by
`src/app/self_update.py` but are not defined in `src/app/config.py`; per the
spec they are external configuration values (a fixed project root and a
configured remote branch name), so they are carried here as fields
(`rootDir` is the already-resolved project root). -/
structure Config where
  rootDir : Path
  updateBranch : String
  autoUpdateEnabled : Bool
deriving DecidableEq, Repr

/-- Models `shutil.copy2(src, dst)` under fault `fault`: on a fault, or when
the source file is missing, it raises and the filesystem is unchanged;
otherwise it copies the source's content to `dst`. The attempt is recorded
in the trace either way. -/
def copy2 (fault : Option String) (src dst : Path) (s : SysState) :
    SysState × Option String :=
  match fault with
  | some msg =>
      ({ s with fsTrace := s.fsTrace ++ [FsOp.copyAttempt src dst false] }, some msg)
  | none =>
      match fsLookup s.fs src with
      | none =>
          ({ s with fsTrace := s.fsTrace ++ [FsOp.copyAttempt src dst false] },
           some ("no such file: " ++ pathStr src))
      | some c =>
          ({ s with
              fs := fsWrite s.fs dst c,
              fsTrace := s.fsTrace ++ [FsOp.copyAttempt src dst true] }, none)

/-- Models `target_path.write_text(new_content, encoding="utf-8")` under
fault `fault`: full replacement on success, raise-without-change on fault. -/
def writeText (fault : Option String) (p : Path) (content : String)
    (s : SysState) : SysState × Option String :=
  match fault with
  | some msg =>
      ({ s with fsTrace := s.fsTrace ++ [FsOp.writeAttempt p false] }, some msg)
  | none =>
      ({ s with
          fs := fsWrite s.fs p content,
          fsTrace := s.fsTrace ++ [FsOp.writeAttempt p true] }, none)

/-- `" ".join(cmd)`. -/
def joinWords (words : List String) : String :=
  String.intercalate " " words

/-- Models `run_cmd(cmd)`: invokes the external command (the invocation is
logged), then either the launch raises or the captured result dictionary is
returned. -/
def runCmd (cmdWords : List String) (beh : CmdBehavior) (s : SysState) :
    SysState × Except String CmdResult :=
  let s1 := { s with cmdLog := s.cmdLog ++ [joinWords cmdWords] }
  match beh with
  | .raises msg => (s1, Except.error msg)
  | .returns out =>
      (s1, Except.ok
        { cmd := joinWords cmdWords
          returncode := out.returncode
          stdout := out.stdout
          stderr := out.stderr })

/-- Models `run_tests()`: runs `pytest` and derives
`success = (returncode == 0)`. -/
def runTests (o : Oracle) (s : SysState) : SysState × Except String TestResult :=
  match runCmd ["pytest"] o.pytestRun s with
  | (s1, Except.error msg) => (s1, Except.error msg)
  | (s1, Except.ok res) =>
      (s1, Except.ok { run := res, success := res.returncode == 0 })

/-- Whether `p` is a leading segment of a character list. -/
def isPrefChars : List Char → List Char → Bool
  | [], _ => true
  | _ :: _, [] => false
  | a :: pa, b :: la => a == b && isPrefChars pa la

/-- Whether the character list `p` occurs contiguously inside the second
list. -/
def hasSubChars (p : List Char) : List Char → Bool
  | [] => p.isEmpty
  | c :: rest => isPrefChars p (c :: rest) || hasSubChars p rest

/-- Whether a substring occurs in a string (Python's `pat in s`). -/
def containsSubstr (s pat : String) : Bool :=
  hasSubChars pat.data s.data

/-- Python's `str.lower()` (character-wise lowering; ASCII suffices for the
marker text compared against). -/
def lowerStr (s : String) : String :=
  String.mk (s.data.map Char.toLower)

/-- The loop guard of `git_commit_and_push`:
`res["returncode"] != 0 and "nothing to commit" not in res["stderr"].lower()`. -/
def fatalRes (r : CmdResult) : Bool :=
  r.returncode != 0 && !(containsSubstr (lowerStr r.stderr) "nothing to commit")

/-- The loop body of `git_commit_and_push` over the remaining
(command, behaviour) steps, accumulating the `logs` list. A raised launch
fault propagates (as `Except.error`); a fatal result aborts with the failing
step's command text and the logs so far. -/
def gitSteps (steps : List (List String × CmdBehavior)) (logs : List CmdResult)
    (s : SysState) : SysState × Except String GitResult :=
  match steps with
  | [] => (s, Except.ok { success := true, step := none, log := logs })
  | (cmdWords, beh) :: rest =>
      match runCmd cmdWords beh s with
      | (s1, Except.error msg) => (s1, Except.error msg)
      | (s1, Except.ok res) =>
          if fatalRes res then
            (s1, Except.ok { success := false, step := some res.cmd, log := logs ++ [res] })
          else
            gitSteps rest (logs ++ [res]) s1

/-- Models `git_commit_and_push(message)`: stage all, commit with the
message, push to the configured branch, in that order. -/
def gitCommitAndPush (cfg : Config) (o : Oracle) (message : String)
    (s : SysState) : SysState × Except String GitResult :=
  gitSteps
    [(["git", "add", "."], o.gitAddRun),
     (["git", "commit", "-m", message], o.gitCommitRun),
     (["git", "push", "origin", cfg.updateBranch], o.gitPushRun)]
    [] s

/-- Models the orchestrator's `except Exception as e` clause: if the backup
file exists, a restore is attempted (a fault in that restore is swallowed by
the `finally: return`), and the `exception` outcome carrying `str(e)` is
returned. -/
def exnHandler (o : Oracle) (backupPath targetPath : Path) (msg : String)
    (s : SysState) : UpdateResult × SysState :=
  let s1 :=
    if (fsLookup s.fs backupPath).isSome then
      (copy2 o.restoreExnFault backupPath targetPath s).1
    else s
  (UpdateResult.exceptionErr msg, s1)

/-- The `tests_failed` branch of `apply_file_update` step 3: restore the
backup (`shutil.copy2(backup_path, target_path)`) and return the
`tests_failed` outcome carrying the test result; a raised restore fault is
routed to the `except` clause. -/
def onTestsFailed (o : Oracle) (backupPath targetPath : Path)
    (testResult : TestResult) (s : SysState) : UpdateResult × SysState :=
  match copy2 o.restoreTestsFault backupPath targetPath s with
  | (s4, some msg) => exnHandler o backupPath targetPath msg s4
  | (s4, none) => (UpdateResult.testsFailed testResult, s4)

/-- Step 4 of `apply_file_update`: run `git_commit_and_push`; on a
non-success result restore the backup and return `git_failed`, on success
return `ok`; raised faults (from the git launch or from the restore) are
routed to the `except` clause. -/
def onGitStage (cfg : Config) (o : Oracle) (backupPath targetPath : Path)
    (testResult : TestResult) (commitMessage : String) (s : SysState) :
    UpdateResult × SysState :=
  match gitCommitAndPush cfg o commitMessage s with
  | (s4, Except.error msg) => exnHandler o backupPath targetPath msg s4
  | (s4, Except.ok gitResult) =>
    if !gitResult.success then
      match copy2 o.restoreGitFault backupPath targetPath s4 with
      | (s5, some msg) => exnHandler o backupPath targetPath msg s5
      | (s5, none) => (UpdateResult.gitFailed gitResult, s5)
    else
      (UpdateResult.ok testResult gitResult, s4)

/-- The `try` block of `apply_file_update` (steps backup → write →
run tests → (restore on test failure) → git commit and push → (restore on
git failure)), with every raised fault routed to `exnHandler`, which models
the enclosing `except Exception` clause. -/
def applyCore (cfg : Config) (o : Oracle) (targetPath backupPath : Path)
    (newContent commitMessage : String) (s0 : SysState) :
    UpdateResult × SysState :=
  match copy2 o.backupFault targetPath backupPath s0 with
    | (s1, some msg) => exnHandler o backupPath targetPath msg s1
    | (s1, none) =>
      match writeText o.writeFault targetPath newContent s1 with
      | (s2, some msg) => exnHandler o backupPath targetPath msg s2
      | (s2, none) =>
        match runTests o s2 with
        | (s3, Except.error msg) => exnHandler o backupPath targetPath msg s3
        | (s3, Except.ok testResult) =>
          if !testResult.success then
            onTestsFailed o backupPath targetPath testResult s3
          else
            onGitStage cfg o backupPath targetPath testResult commitMessage s3

/-- The resolved absolute target path of an update request:
`(ROOT_DIR / rel_path).resolve()`. -/
def targetOf (cfg : Config) (relPath : List String) : Path :=
  resolveComponents cfg.rootDir relPath

/-- Models `apply_file_update(rel_path, new_content, commit_message)`:
resolve the target, require it to exist, require it to be inside the project
root (`ROOT_DIR not in target_path.parents and target_path != ROOT_DIR`
rejects), then run the backed-up update sequence of `applyCore`. -/
def applyFileUpdate (cfg : Config) (o : Oracle) (relPath : List String)
    (newContent : String) (commitMessage : String) (s0 : SysState) :
    UpdateResult × SysState :=
  let targetPath := targetOf cfg relPath
  if fsLookup s0.fs targetPath = none then
    (UpdateResult.fileNotFound (pathStr targetPath), s0)
  else if cfg.rootDir ∉ strictAncestors targetPath ∧ targetPath ≠ cfg.rootDir then
    (UpdateResult.outsideProjectRoot (pathStr targetPath), s0)
  else
    applyCore cfg o targetPath (mkBackupPath targetPath) newContent commitMessage s0

/-- The plan dictionary returned by `make_update_plan`. -/
structure UpdatePlan where
  targetFile : String
  goal : String
  suggestedSteps : List String
deriving DecidableEq, Repr

/-- Models `make_update_plan(target_file, goal)`: a pure description, no
mutation. -/
def makeUpdatePlan (targetFile goal : String) : UpdatePlan :=
  { targetFile := targetFile
    goal := goal
    suggestedSteps :=
      ["读取当前文件内容",
       "根据 goal 设计需要修改/新增的函数、类或逻辑",
       "生成完整的新文件内容（而不是只生成 diff，方便简单覆盖）",
       "调用 /admin/self_update_apply 将新内容写入并触发测试和 push"] }

/-- Outcome of the gated apply operation at the invocation surface. -/
inductive ApplyGateResult where
  | disabled
  | applied (r : UpdateResult)
deriving DecidableEq, Repr

/-- Outcome of the gated plan operation at the invocation surface. -/
inductive PlanGateResult where
  | disabled
  | planned (p : UpdatePlan)
deriving DecidableEq, Repr

/-- Modelled from the spec: the HTTP invocation surface that exposes
`apply`/`plan` is not present under `src/` (`src/app/main.py` defines no
self-update routes, though `make_update_plan`'s docstring names
`/admin/self_update_apply`). Per the spec, both operations are gated by the
boolean feature flag (`config.AUTO_UPDATE_ENABLED`): when the flag is off,
`apply` rejects with a distinct "disabled" result before touching the
filesystem. -/
def applyGate (cfg : Config) (o : Oracle) (relPath : List String)
    (newContent : String) (commitMessage : String) (s : SysState) :
    ApplyGateResult × SysState :=
  if cfg.autoUpdateEnabled then
    let (r, s1) := applyFileUpdate cfg o relPath newContent commitMessage s
    (ApplyGateResult.applied r, s1)
  else
    (ApplyGateResult.disabled, s)

/-- Modelled from the spec: the gated plan operation of the missing HTTP
invocation surface — when `config.AUTO_UPDATE_ENABLED` is off, `plan`
rejects with the distinct "disabled" result; otherwise it returns the pure
plan of `make_update_plan` and never touches the filesystem. -/
def planGate (cfg : Config) (targetFile goal : String) (s : SysState) :
    PlanGateResult × SysState :=
  if cfg.autoUpdateEnabled then
    (PlanGateResult.planned (makeUpdatePlan targetFile goal), s)
  else
    (PlanGateResult.disabled, s)

/-- The best-effort restore onto the target was attempted during the run:
the trace records a copy attempt from the backup onto the target,
successful or not. -/
def restoreAttempted (s : SysState) (backupPath targetPath : Path) : Bool :=
  decide (FsOp.copyAttempt backupPath targetPath true ∈ s.fsTrace) ||
    decide (FsOp.copyAttempt backupPath targetPath false ∈ s.fsTrace)

/-- The `run_cmd` dictionary assembled from a command text and captured
process output. -/
def mkCmdResult (cmdText : String) (out : CmdOut) : CmdResult :=
  { cmd := cmdText
    returncode := out.returncode
    stdout := out.stdout
    stderr := out.stderr }

/-- Specification-side summary: the message of the first fault the publish
stage raises (either a raising `git` launch, or — after a fatal step aborts
the stage — a fault of the subsequent restore-from-backup), `none` when the
publish stage raises nothing. -/
def gitFaultOf (o : Oracle) (message branch : String) : Option String :=
  match o.gitAddRun with
  | .raises m => some m
  | .returns a =>
    if fatalRes (mkCmdResult (joinWords ["git", "add", "."]) a) then
      o.restoreGitFault
    else
      match o.gitCommitRun with
      | .raises m => some m
      | .returns c =>
        if fatalRes (mkCmdResult (joinWords ["git", "commit", "-m", message]) c) then
          o.restoreGitFault
        else
          match o.gitPushRun with
          | .raises m => some m
          | .returns p =>
            if fatalRes (mkCmdResult (joinWords ["git", "push", "origin", branch]) p) then
              o.restoreGitFault
            else none

/-- Specification-side summary: the message of the first fault an
`apply_file_update` run raises inside its `try` block once the target has
passed the existence and containment checks (the backup copy, the content
write, the test run, the restore after failing tests, the publish stage, or
the restore after a failed publish), `none` when the run raises nothing. -/
def faultOf (o : Oracle) (message branch : String) : Option String :=
  match o.backupFault with
  | some m => some m
  | none =>
    match o.writeFault with
    | some m => some m
    | none =>
      match o.pytestRun with
      | .raises m => some m
      | .returns t =>
        if t.returncode != 0 then o.restoreTestsFault
        else gitFaultOf o message branch

end HerServe

namespace HerServe

/-- One suggested repair action (`app/self_heal.py`, class `HealAction`). -/
structure HealAction where
  name : String
  status : String
  detail : String := ""
deriving DecidableEq, Repr

/-- The reporter's internal state (`app/self_heal.py`, class
`SelfHealState`). -/
structure SelfHealState where
  lastError : Option String := none
  openaiOk : Bool := true
  firestoreOk : Bool := true
  history : List HealAction := []
deriving DecidableEq, Repr

/-- Models `SelfHealer.record_error(err)`. -/
def recordError (st : SelfHealState) (err : String) : SelfHealState :=
  { st with
      lastError := some err,
      history := st.history ++
        [{ name := "record_error", status := "logged", detail := err }] }

/-- The `needs_attention` action appended when the completion-API flag
fails. -/
def openaiAction : HealAction :=
  { name := "check_openai_key"
    status := "needs_attention"
    detail := "OPENAI_API_KEY 可能失效或请求失败过多" }

/-- The `needs_attention` action appended when the store flag fails. -/
def firestoreAction : HealAction :=
  { name := "check_firestore"
    status := "needs_attention"
    detail := "Firestore 连接或配置可能有问题" }

/-- The single `ok` action reported when no health predicate fails. -/
def okAction : HealAction :=
  { name := "basic_diagnostics"
    status := "ok"
    detail := "暂时未发现需要修复的问题" }

/-- Models `SelfHealer.run_basic_diagnostics()`: one `needs_attention`
action per failing health predicate, a single `ok` action when none fails;
the returned actions are appended (`history.extend`) to the state's
history. -/
def runBasicDiagnostics (st : SelfHealState) : List HealAction × SelfHealState :=
  let checks :=
    (if !st.openaiOk then [openaiAction] else []) ++
      (if !st.firestoreOk then [firestoreAction] else [])
  let actions := if checks.isEmpty then [okAction] else checks
  (actions, { st with history := st.history ++ actions })

/-- The summary dictionary returned by `SelfHealer.heal()`. -/
structure HealSummary where
  status : String
  lastError : Option String
  actions : List HealAction
deriving DecidableEq, Repr

/-- Models `SelfHealer.heal()`. -/
def heal (st : SelfHealState) : HealSummary × SelfHealState :=
  let (actions, st1) := runBasicDiagnostics st
  ({ status := "ok", lastError := st.lastError, actions := actions }, st1)

end HerServe

namespace HerServe

/-! Concrete instances used by witnesses and counterexamples. -/

/-- A concrete configuration: project root `/home/her`, publish branch
`main`, auto-update enabled. -/
def cfgW : Config :=
  { rootDir := ["home", "her"], updateBranch := "main", autoUpdateEnabled := true }

/-- `cfgW` with the auto-update feature flag off. -/
def cfgOff : Config := { cfgW with autoUpdateEnabled := false }

/-- A concrete pre-call state: `/home/her/a.txt` holds `"A"` and
`/etc/pw` holds `"X"`; nothing has been logged yet. -/
def stW : SysState :=
  { fs := [(["home", "her", "a.txt"], "A"), (["etc", "pw"], "X")]
    cmdLog := []
    fsTrace := [] }

/-- A fault-free oracle: every filesystem operation succeeds, `pytest` and
all three `git` steps exit 0. -/
def oGood : Oracle :=
  { backupFault := none, writeFault := none, restoreTestsFault := none
    restoreGitFault := none, restoreExnFault := none
    pytestRun := .returns { returncode := 0, stdout := "", stderr := "" }
    gitAddRun := .returns { returncode := 0, stdout := "", stderr := "" }
    gitCommitRun := .returns { returncode := 0, stdout := "", stderr := "" }
    gitPushRun := .returns { returncode := 0, stdout := "", stderr := "" } }

/-- Oracle for which the test run raises and the exception handler's
restore copy itself faults. -/
def oRaiseRestoreFault : Oracle :=
  { oGood with pytestRun := .raises "boom", restoreExnFault := some "disk full" }

/-- Oracle for which the test run raises but every restore succeeds. -/
def oRaise : Oracle := { oGood with pytestRun := .raises "boom" }

/-- Oracle for which the tests exit non-zero and the rollback copy after
the failed tests faults (as does the exception handler's own retry). -/
def oTestsFailRestoreFault : Oracle :=
  { oGood with
      pytestRun := .returns { returncode := 1, stdout := "1 failed", stderr := "" }
      restoreTestsFault := some "disk full"
      restoreExnFault := some "disk full again" }

/-- Oracle for which the stage-all step exits non-zero while printing the
no-op marker text, and everything else succeeds. -/
def oAddNothing : Oracle :=
  { oGood with
      gitAddRun := .returns
        { returncode := 1, stdout := ""
          stderr := "nothing to commit, working tree clean" } }

/-- Oracle for which the commit step exits non-zero printing the no-op
marker text, and everything else succeeds. -/
def oCommitNothing : Oracle :=
  { oGood with
      gitCommitRun := .returns
        { returncode := 1, stdout := ""
          stderr := "On branch main\nNothing to commit, working tree clean" } }

/-- Oracle for which the tests exit non-zero and everything else
succeeds. -/
def oTestsFail : Oracle :=
  { oGood with
      pytestRun := .returns { returncode := 1, stdout := "1 failed", stderr := "" } }

/-- A concrete reporter state in which both health predicates fail. -/
def stHealW : SelfHealState :=
  { lastError := some "quota", openaiOk := false, firestoreOk := false
    history := [{ name := "record_error", status := "logged", detail := "quota" }] }

end HerServe

namespace HerServe

/-! Basic lemmas about the filesystem model and path arithmetic. -/

theorem fsLookup_fsWrite_self (fs : FileSystem) (p : Path) (c : String) :
    fsLookup (fsWrite fs p c) p = some c := by
  induction fs with
  | nil => simp [fsWrite, fsLookup]
  | cons hd tl ih =>
    obtain ⟨q, d⟩ := hd
    by_cases h : q = p <;> simp [fsWrite, fsLookup, h, ih]

theorem fsLookup_fsWrite_ne (fs : FileSystem) (p q : Path) (c : String)
    (h : q ≠ p) : fsLookup (fsWrite fs p c) q = fsLookup fs q := by
  induction fs with
  | nil => simp [fsWrite, fsLookup, Ne.symm h]
  | cons hd tl ih =>
    obtain ⟨r, d⟩ := hd
    by_cases hr : r = p
    · subst hr
      simp [fsWrite, fsLookup, Ne.symm h]
    · simp [fsWrite, fsLookup, hr, ih]

theorem mkBackupPath_ne (p : Path) (hp : p ≠ []) : mkBackupPath p ≠ p := by
  induction p with
  | nil => exact absurd rfl hp
  | cons c rest ih =>
    cases rest with
    | nil =>
      simp only [mkBackupPath, ne_eq, List.cons.injEq, and_true]
      intro h
      have hlen := congrArg String.length h
      simp [String.length_append] at hlen
      exact absurd hlen (by decide)
    | cons c2 rest2 =>
      simp only [mkBackupPath, ne_eq, List.cons.injEq, true_and]
      exact fun h => ih (by simp) h

theorem mem_strictAncestors (p q : Path) :
    p ∈ strictAncestors q ↔ p <+: q ∧ p ≠ q := by
  induction q generalizing p with
  | nil =>
    constructor
    · intro h
      exact absurd h (by simp [strictAncestors])
    · rintro ⟨hpre, hne⟩
      exact absurd (List.prefix_nil.mp hpre) hne
  | cons a rest ih =>
    cases p with
    | nil => simp [strictAncestors]
    | cons b p2 =>
      constructor
      · intro h
        rcases List.mem_cons.mp h with h0 | h1
        · exact absurd h0 (by simp)
        · obtain ⟨p3, hmem, heq⟩ := List.mem_map.mp h1
          injection heq with hab hp
          subst hab
          subst hp
          have h2 := (ih p3).mp hmem
          refine ⟨List.cons_prefix_cons.mpr ⟨rfl, h2.1⟩, ?_⟩
          intro hh
          injection hh with hh1 hh2
          exact h2.2 hh2
      · rintro ⟨hpre, hne⟩
        obtain ⟨hab, hp2⟩ := List.cons_prefix_cons.mp hpre
        subst hab
        refine List.mem_cons.mpr (Or.inr (List.mem_map.mpr ⟨p2, (ih p2).mpr ⟨hp2, ?_⟩, rfl⟩))
        intro hh
        subst hh
        exact hne rfl

theorem outside_guard_iff (root t : Path) :
    (root ∉ strictAncestors t ∧ t ≠ root) ↔ ¬ root <+: t := by
  rw [mem_strictAncestors]
  by_cases h : t = root
  · subst h
    simp
  · simp only [h, ne_eq, not_false_iff, and_true]
    constructor
    · intro hn hpre
      exact hn ⟨hpre, fun hh => h hh.symm⟩
    · intro hn hand
      exact hn hand.1

theorem prefix_ne_nil (root t : Path) (h : root <+: t) (hr : root ≠ []) :
    t ≠ [] := by
  obtain ⟨u, rfl⟩ := h
  simp_all

end HerServe

namespace HerServe

theorem gitSteps_fs_trace (steps : List (List String × CmdBehavior))
    (logs : List CmdResult) (s : SysState) :
    (gitSteps steps logs s).1.fs = s.fs ∧
      (gitSteps steps logs s).1.fsTrace = s.fsTrace := by
  induction steps generalizing logs s with
  | nil => simp [gitSteps]
  | cons hd rest ih =>
    obtain ⟨cmdWords, beh⟩ := hd
    cases beh with
    | raises m => simp [gitSteps, runCmd]
    | returns out =>
      simp only [gitSteps, runCmd]
      split
      · exact ⟨rfl, rfl⟩
      · exact ih _ _

theorem applyFileUpdate_not_found (cfg : Config) (o : Oracle) (rel : List String)
    (new msg : String) (s : SysState)
    (hnone : fsLookup s.fs (targetOf cfg rel) = none) :
    applyFileUpdate cfg o rel new msg s =
      (UpdateResult.fileNotFound (pathStr (targetOf cfg rel)), s) := by
  simp [applyFileUpdate, hnone]

theorem applyFileUpdate_outside (cfg : Config) (o : Oracle) (rel : List String)
    (new msg : String) (s : SysState)
    (hex : fsLookup s.fs (targetOf cfg rel) ≠ none)
    (hout : ¬ cfg.rootDir <+: targetOf cfg rel) :
    applyFileUpdate cfg o rel new msg s =
      (UpdateResult.outsideProjectRoot (pathStr (targetOf cfg rel)), s) := by
  simp only [applyFileUpdate]
  rw [if_neg hex, if_pos ((outside_guard_iff _ _).mpr hout)]

theorem applyFileUpdate_eq_core (cfg : Config) (o : Oracle) (rel : List String)
    (new msg : String) (s : SysState)
    (hex : fsLookup s.fs (targetOf cfg rel) ≠ none)
    (hin : cfg.rootDir <+: targetOf cfg rel) :
    applyFileUpdate cfg o rel new msg s =
      applyCore cfg o (targetOf cfg rel) (mkBackupPath (targetOf cfg rel)) new msg s := by
  simp only [applyFileUpdate]
  rw [if_neg hex, if_neg (fun hc => ((outside_guard_iff _ _).mp hc) hin)]

end HerServe

namespace HerServe

theorem gitCommitAndPush_fs (cfg : Config) (o : Oracle) (msg : String)
    (s : SysState) :
    (gitCommitAndPush cfg o msg s).1.fs = s.fs ∧
      (gitCommitAndPush cfg o msg s).1.fsTrace = s.fsTrace := by
  exact gitSteps_fs_trace _ _ _

/-- In the exception handler, when the backup file exists and the handler's
restore copy succeeds, the target ends up holding the backup's content. -/
theorem exnHandler_restored (o : Oracle) (b t : Path) (m : String)
    (s : SysState) (c : String)
    (hb : fsLookup s.fs b = some c)
    (hre : o.restoreExnFault = none) :
    (exnHandler o b t m s).1 = UpdateResult.exceptionErr m ∧
      fsLookup (exnHandler o b t m s).2.fs t = some c := by
  simp only [exnHandler, hb, copy2, hre, Option.isSome_some, if_true]
  simp [fsLookup_fsWrite_self]

/-- In the exception handler, when the backup file does not exist, nothing
is copied and the filesystem is unchanged. -/
theorem exnHandler_no_backup (o : Oracle) (b t : Path) (m : String)
    (s : SysState)
    (hb : fsLookup s.fs b = none) :
    (exnHandler o b t m s).1 = UpdateResult.exceptionErr m ∧
      (exnHandler o b t m s).2.fs = s.fs := by
  simp [exnHandler, hb]

/-- The exception handler always reports the `exception` outcome with the
fault text, and whenever the backup file exists it attempts the restore
copy (recording the attempt in the trace), its own fault being swallowed. -/
theorem exnHandler_spec (o : Oracle) (b t : Path) (m : String) (s : SysState) :
    (exnHandler o b t m s).1 = UpdateResult.exceptionErr m ∧
      ((fsLookup s.fs b).isSome = true →
        restoreAttempted (exnHandler o b t m s).2 b t = true) := by
  refine ⟨rfl, ?_⟩
  intro hsome
  simp only [exnHandler, hsome, if_true]
  cases hre : o.restoreExnFault with
  | some m2 =>
    simp [copy2, hre, restoreAttempted]
  | none =>
    cases hcb : fsLookup s.fs b with
    | none => simp [hcb] at hsome
    | some c =>
      simp [copy2, hre, hcb, restoreAttempted]

end HerServe

namespace HerServe

/-- The `tests_failed` branch with a succeeding restore: the outcome carries
the failing test result and the target is back to the backup's content. -/
theorem onTestsFailed_ok (o : Oracle) (b t : Path) (tr : TestResult)
    (s : SysState) (c : String)
    (hrt : o.restoreTestsFault = none)
    (hb : fsLookup s.fs b = some c) :
    (onTestsFailed o b t tr s).1 = UpdateResult.testsFailed tr ∧
      fsLookup (onTestsFailed o b t tr s).2.fs t = some c ∧
      (onTestsFailed o b t tr s).2.cmdLog = s.cmdLog := by
  simp only [onTestsFailed, copy2, hrt, hb]
  simp [fsLookup_fsWrite_self]

/-- The git stage when the publish sequence raises no launch fault and the
restore copies succeed: `git_failed` with the backup's content restored on a
non-success publish result, `ok` with the written content kept on
success. -/
theorem onGitStage_content (cfg : Config) (o : Oracle) (b t : Path)
    (tr : TestResult) (msg : String) (s : SysState) (oldC newC : String)
    (hnew : fsLookup s.fs t = some newC)
    (hback : fsLookup s.fs b = some oldC)
    (hrg : o.restoreGitFault = none)
    (hre : o.restoreExnFault = none) :
    fsLookup (onGitStage cfg o b t tr msg s).2.fs t =
      (if (onGitStage cfg o b t tr msg s).1.isOk then some newC else some oldC) := by
  rcases hE : gitCommitAndPush cfg o msg s with ⟨s4, r4⟩
  have hfs : s4.fs = s.fs := by
    have := (gitCommitAndPush_fs cfg o msg s).1
    rw [hE] at this
    exact this
  cases r4 with
  | error m =>
    simp only [onGitStage, hE]
    have h := exnHandler_restored o b t m s4 oldC (by rw [hfs]; exact hback) hre
    rw [h.1, h.2]
    simp [UpdateResult.isOk]
  | ok gr =>
    simp only [onGitStage, hE]
    by_cases hsucc : gr.success
    · simp only [hsucc, Bool.not_true, Bool.false_eq_true, if_false]
      simp [UpdateResult.isOk, hfs, hnew]
    · simp only [Bool.not_eq_true] at hsucc
      simp only [hsucc, Bool.not_false, if_true]
      simp only [copy2, hrg]
      rw [hfs, hback]
      simp [UpdateResult.isOk, fsLookup_fsWrite_self]

end HerServe

namespace HerServe

theorem exnHandler_fst (o : Oracle) (b t : Path) (m : String) (s : SysState) :
    (exnHandler o b t m s).1 = UpdateResult.exceptionErr m := rfl

theorem exnHandler_content_of_backup (o : Oracle) (b t : Path) (m : String)
    (s : SysState) (c : String)
    (hre : o.restoreExnFault = none)
    (hb : fsLookup s.fs b = some c) :
    fsLookup (exnHandler o b t m s).2.fs t = some c :=
  (exnHandler_restored o b t m s c hb hre).2

theorem exnHandler_content_no_backup (o : Oracle) (b t : Path) (m : String)
    (s : SysState)
    (hb : fsLookup s.fs b = none) :
    fsLookup (exnHandler o b t m s).2.fs t = fsLookup s.fs t := by
  rw [(exnHandler_no_backup o b t m s hb).2]

/-- Content characterization of the `try` block: provided the rollback
copies do not fault, and no stale backup file pre-exists when the backup
copy itself faults, the target ends up holding the submitted content
exactly on the `ok` outcome and its pre-call content on every other
outcome. -/
theorem applyCore_content (cfg : Config) (o : Oracle) (t : Path)
    (v g : String) (s : SysState) (c : String)
    (hold : fsLookup s.fs t = some c)
    (hbt : mkBackupPath t ≠ t)
    (hrt : o.restoreTestsFault = none)
    (hrg : o.restoreGitFault = none)
    (hre : o.restoreExnFault = none)
    (hstale : o.backupFault = none ∨ fsLookup s.fs (mkBackupPath t) = none) :
    fsLookup (applyCore cfg o t (mkBackupPath t) v g s).2.fs t =
      (if (applyCore cfg o t (mkBackupPath t) v g s).1.isOk then some v
       else some c) := by
  set b := mkBackupPath t with hbdef
  cases hbf : o.backupFault with
  | some m =>
    have hsb : fsLookup s.fs b = none := by
      rcases hstale with hs | hs
      · rw [hbf] at hs
        exact absurd hs (by simp)
      · exact hs
    simp only [applyCore, copy2, hbf]
    rw [exnHandler_fst, exnHandler_content_no_backup]
    · simp [UpdateResult.isOk, hold]
    · exact hsb
  | none =>
    simp only [applyCore, copy2, hbf, hold]
    cases hwf : o.writeFault with
    | some m =>
      simp only [writeText, hwf]
      simp only [exnHandler_fst]
      rw [exnHandler_content_of_backup (c := c)]
      · simp [UpdateResult.isOk]
      · exact hre
      · exact fsLookup_fsWrite_self _ _ _
    | none =>
      simp only [writeText, hwf]
      cases hpt : o.pytestRun with
      | raises m =>
        simp only [runTests, runCmd, hpt]
        simp only [exnHandler_fst]
        rw [exnHandler_content_of_backup (c := c)]
        · simp [UpdateResult.isOk]
        · exact hre
        · rw [fsLookup_fsWrite_ne _ _ _ _ hbt]
          exact fsLookup_fsWrite_self _ _ _
      | returns u =>
        simp only [runTests, runCmd, hpt]
        by_cases hz : u.returncode == 0
        · simp only [hz, Bool.not_true, Bool.false_eq_true, if_false]
          apply onGitStage_content
          · exact fsLookup_fsWrite_self _ _ _
          · rw [fsLookup_fsWrite_ne _ _ _ _ hbt]
            exact fsLookup_fsWrite_self _ _ _
          · exact hrg
          · exact hre
        · simp only [Bool.not_eq_true] at hz
          simp only [hz, Bool.not_false, if_true]
          have hback : fsLookup (fsWrite (fsWrite s.fs b c) t v) b = some c := by
            rw [fsLookup_fsWrite_ne _ _ _ _ hbt]
            exact fsLookup_fsWrite_self _ _ _
          simp only [onTestsFailed, copy2, hrt]
          rw [hback]
          simp [UpdateResult.isOk, fsLookup_fsWrite_self]

end HerServe

namespace HerServe

theorem joinWords_pytest : joinWords ["pytest"] = "pytest" := rfl

theorem joinWords_git_add : joinWords ["git", "add", "."] = "git add ." := rfl

theorem joinWords_git_commit (g : String) :
    joinWords ["git", "commit", "-m", g] = "git commit -m " ++ g := by
  simp only [joinWords]
  show String.intercalate.go "git" " " ["commit", "-m", g] = _
  rw [String.intercalate.go, String.intercalate.go, String.intercalate.go,
    String.intercalate.go]
  simp [String.append_assoc]

theorem joinWords_git_push (b : String) :
    joinWords ["git", "push", "origin", b] = "git push origin " ++ b := by
  simp only [joinWords]
  show String.intercalate.go "git" " " ["push", "origin", b] = _
  rw [String.intercalate.go, String.intercalate.go, String.intercalate.go,
    String.intercalate.go]
  simp [String.append_assoc]

theorem tag_mem_six (r : UpdateResult) :
    r.tag = "ok" ∨ r.tag = "tests_failed" ∨ r.tag = "git_failed" ∨
      r.tag = "file_not_found" ∨ r.tag = "outside_project_root" ∨
      r.tag = "exception" := by
  cases r <;> simp [UpdateResult.tag]

theorem restoreAttempted_of_mem (s : SysState) (b t : Path) (k : Bool)
    (h : FsOp.copyAttempt b t k ∈ s.fsTrace) :
    restoreAttempted s b t = true := by
  cases k <;> simp [restoreAttempted, h]

theorem exnHandler_trace_mem (o : Oracle) (b t : Path) (m : String)
    (s : SysState) (x : FsOp) (hx : x ∈ s.fsTrace) :
    x ∈ (exnHandler o b t m s).2.fsTrace := by
  by_cases h : (fsLookup s.fs b).isSome = true
  · simp only [exnHandler, h, if_true]
    cases hre : o.restoreExnFault with
    | some m2 => simp [copy2, hre, hx]
    | none =>
      cases hcb : fsLookup s.fs b with
      | none => simp [copy2, hre, hcb, hx]
      | some cc => simp [copy2, hre, hcb, hx]
  · simp only [exnHandler, h, if_false]
    exact hx

end HerServe

namespace HerServe

/-- Closed form of `git_commit_and_push` when none of the three launches
raises: the steps run in order (stage-all, commit, push), each executed
step's result is recorded in the log in order, and the first fatal result
(non-zero exit whose lowercased stderr lacks the marker text
`"nothing to commit"`) aborts the sequence, identifying the failing step. -/
theorem gitCommitAndPush_eq (cfg : Config) (o : Oracle) (g : String)
    (s : SysState) (a c p : CmdOut)
    (ha : o.gitAddRun = CmdBehavior.returns a)
    (hc : o.gitCommitRun = CmdBehavior.returns c)
    (hp : o.gitPushRun = CmdBehavior.returns p) :
    gitCommitAndPush cfg o g s =
      (let addRes := mkCmdResult "git add ." a
       let commitRes := mkCmdResult ("git commit -m " ++ g) c
       let pushRes := mkCmdResult ("git push origin " ++ cfg.updateBranch) p
       if fatalRes addRes then
         ({ s with cmdLog := s.cmdLog ++ ["git add ."] },
          Except.ok { success := false, step := some "git add .", log := [addRes] })
       else if fatalRes commitRes then
         ({ s with cmdLog := s.cmdLog ++ ["git add .", "git commit -m " ++ g] },
          Except.ok { success := false, step := some ("git commit -m " ++ g),
                      log := [addRes, commitRes] })
       else if fatalRes pushRes then
         ({ s with cmdLog := s.cmdLog ++
              ["git add .", "git commit -m " ++ g,
               "git push origin " ++ cfg.updateBranch] },
          Except.ok { success := false,
                      step := some ("git push origin " ++ cfg.updateBranch),
                      log := [addRes, commitRes, pushRes] })
       else
         ({ s with cmdLog := s.cmdLog ++
              ["git add .", "git commit -m " ++ g,
               "git push origin " ++ cfg.updateBranch] },
          Except.ok { success := true, step := none,
                      log := [addRes, commitRes, pushRes] })) := by
  simp only [gitCommitAndPush, gitSteps, runCmd, ha, hc, hp, joinWords_git_add,
    joinWords_git_commit, joinWords_git_push, mkCmdResult]
  by_cases h1 : fatalRes
      { cmd := "git add .", returncode := a.returncode, stdout := a.stdout,
        stderr := a.stderr }
  · simp [h1]
  · simp only [h1, Bool.false_eq_true, if_false]
    by_cases h2 : fatalRes
        { cmd := "git commit -m " ++ g, returncode := c.returncode,
          stdout := c.stdout, stderr := c.stderr }
    · simp [h2]
    · simp only [h2, Bool.false_eq_true, if_false]
      by_cases h3 : fatalRes
          { cmd := "git push origin " ++ cfg.updateBranch,
            returncode := p.returncode, stdout := p.stdout, stderr := p.stderr }
      · simp [h3]
      · simp [h3]

end HerServe

namespace HerServe

/-- When the publish stage raises (directly, or through a faulting restore
after a fatal step), the git stage of the orchestrator ends in the
`exception` outcome with that fault's text, and the restore onto the target
has been attempted. -/
theorem onGitStage_exception (cfg : Config) (o : Oracle) (b t : Path)
    (tr : TestResult) (g : String) (s : SysState) (m : String)
    (hback : (fsLookup s.fs b).isSome = true)
    (hf : gitFaultOf o g cfg.updateBranch = some m) :
    (onGitStage cfg o b t tr g s).1 = UpdateResult.exceptionErr m ∧
      restoreAttempted (onGitStage cfg o b t tr g s).2 b t = true := by
  cases hA : o.gitAddRun with
  | raises mA =>
    have hm : mA = m := by
      simp [gitFaultOf, hA] at hf
      exact hf
    subst hm
    simp only [onGitStage, gitCommitAndPush, gitSteps, runCmd, hA]
    exact ⟨rfl, (exnHandler_spec _ _ _ _ _).2 hback⟩
  | returns a =>
    by_cases hfa : fatalRes
        { cmd := joinWords ["git", "add", "."], returncode := a.returncode,
          stdout := a.stdout, stderr := a.stderr } = true
    · have hrg : o.restoreGitFault = some m := by
        simp [gitFaultOf, mkCmdResult, hA, hfa] at hf
        exact hf
      simp only [onGitStage, gitCommitAndPush, gitSteps, runCmd, hA]
      simp only [hfa, if_true, Bool.not_false, copy2, hrg]
      constructor
      · exact rfl
      · apply restoreAttempted_of_mem _ _ _ false
        apply exnHandler_trace_mem
        simp
    · simp only [onGitStage, gitCommitAndPush, gitSteps, runCmd, hA]
      simp only [hfa, Bool.false_eq_true, if_false]
      cases hC : o.gitCommitRun with
      | raises mC =>
        have hm : mC = m := by
          simp [gitFaultOf, mkCmdResult, hA, hfa, hC] at hf
          exact hf
        subst hm
        simp only [runCmd, hC]
        exact ⟨rfl, (exnHandler_spec _ _ _ _ _).2 hback⟩
      | returns c =>
        by_cases hfc : fatalRes
            { cmd := joinWords ["git", "commit", "-m", g], returncode := c.returncode,
              stdout := c.stdout, stderr := c.stderr } = true
        · have hrg : o.restoreGitFault = some m := by
            simp [gitFaultOf, mkCmdResult, hA, hfa, hC, hfc] at hf
            exact hf
          simp only [runCmd, hC]
          simp only [hfc, if_true, Bool.not_false, copy2, hrg]
          constructor
          · exact rfl
          · apply restoreAttempted_of_mem _ _ _ false
            apply exnHandler_trace_mem
            simp
        · simp only [runCmd, hC]
          simp only [hfc, Bool.false_eq_true, if_false]
          cases hP : o.gitPushRun with
          | raises mP =>
            have hm : mP = m := by
              simp [gitFaultOf, mkCmdResult, hA, hfa, hC, hfc, hP] at hf
              exact hf
            subst hm
            simp only [runCmd, hP]
            exact ⟨rfl, (exnHandler_spec _ _ _ _ _).2 hback⟩
          | returns p =>
            by_cases hfp : fatalRes
                { cmd := joinWords ["git", "push", "origin", cfg.updateBranch],
                  returncode := p.returncode, stdout := p.stdout,
                  stderr := p.stderr } = true
            · have hrg : o.restoreGitFault = some m := by
                simp [gitFaultOf, mkCmdResult, hA, hfa, hC, hfc, hP, hfp] at hf
                exact hf
              simp only [runCmd, hP]
              simp only [hfp, if_true, Bool.not_false, copy2, hrg]
              constructor
              · exact rfl
              · apply restoreAttempted_of_mem _ _ _ false
                apply exnHandler_trace_mem
                simp
            · exfalso
              simp [gitFaultOf, mkCmdResult, hA, hfa, hC, hfc, hP, hfp] at hf

end HerServe

namespace HerServe


theorem isSome_write_write (f : FileSystem) (b t : Path) (c v : String) :
    (fsLookup (fsWrite (fsWrite f b c) t v) b).isSome = true := by
  by_cases hbt : b = t
  · subst hbt
    simp [fsLookup_fsWrite_self]
  · rw [fsLookup_fsWrite_ne _ _ _ _ hbt]
    simp [fsLookup_fsWrite_self]

/-- When the run raises anywhere inside the `try` block, the outcome is
`exception` carrying that first fault's text; moreover if the backup copy
itself was not the faulting step, the restore onto the target has been
attempted (even when the restore itself faults — its failure is
swallowed). -/
theorem applyCore_exception (cfg : Config) (o : Oracle) (t : Path)
    (v g : String) (s : SysState) (c m : String)
    (hold : fsLookup s.fs t = some c)
    (hf : faultOf o g cfg.updateBranch = some m) :
    (applyCore cfg o t (mkBackupPath t) v g s).1 = UpdateResult.exceptionErr m ∧
      (!(o.backupFault.isNone) ||
        restoreAttempted (applyCore cfg o t (mkBackupPath t) v g s).2
          (mkBackupPath t) t) = true := by
  set b := mkBackupPath t with hbdef
  cases hbf : o.backupFault with
  | some m0 =>
    have hm : m0 = m := by
      simp [faultOf, hbf] at hf
      exact hf
    subst hm
    simp only [applyCore, copy2, hbf]
    exact ⟨rfl, by simp⟩
  | none =>
    cases hwf : o.writeFault with
    | some m0 =>
      have hm : m0 = m := by
        simp [faultOf, hbf, hwf] at hf
        exact hf
      subst hm
      simp only [applyCore, copy2, hbf, hold, writeText, hwf]
      refine ⟨rfl, ?_⟩
      simp only [Option.isNone_none, Bool.not_true, Bool.false_or]
      apply (exnHandler_spec _ _ _ _ _).2
      simp [fsLookup_fsWrite_self]
    | none =>
      cases hpt : o.pytestRun with
      | raises m0 =>
        have hm : m0 = m := by
          simp [faultOf, hbf, hwf, hpt] at hf
          exact hf
        subst hm
        simp only [applyCore, copy2, hbf, hold, writeText, hwf, runTests, runCmd, hpt]
        refine ⟨rfl, ?_⟩
        simp only [Option.isNone_none, Bool.not_true, Bool.false_or]
        apply (exnHandler_spec _ _ _ _ _).2
        exact isSome_write_write _ _ _ _ _
      | returns u =>
        by_cases hz : u.returncode = 0
        · have hz2 : (u.returncode == 0) = true := by simp [hz]
          have hgit : gitFaultOf o g cfg.updateBranch = some m := by
            simp [faultOf, hbf, hwf, hpt, hz] at hf
            exact hf
          simp only [applyCore, copy2, hbf, hold, writeText, hwf, runTests, runCmd, hpt]
          simp only [hz2, Bool.not_true, Bool.false_eq_true, if_false]
          refine ⟨?_, ?_⟩
          · exact (onGitStage_exception cfg o b t _ g _ m (isSome_write_write _ _ _ _ _) hgit).1
          · simp only [Option.isNone_none, Bool.not_true, Bool.false_or]
            exact (onGitStage_exception cfg o b t _ g _ m (isSome_write_write _ _ _ _ _) hgit).2
        · have hz2 : (u.returncode == 0) = false := by simp [hz]
          have hrt : o.restoreTestsFault = some m := by
            simp [faultOf, hbf, hwf, hpt, hz] at hf
            exact hf
          simp only [applyCore, copy2, hbf, hold, writeText, hwf, runTests, runCmd, hpt]
          simp only [hz2, Bool.not_false, if_true]
          simp only [onTestsFailed, copy2, hrt]
          refine ⟨rfl, ?_⟩
          simp only [Option.isNone_none, Bool.not_true, Bool.false_or]
          apply restoreAttempted_of_mem _ _ _ false
          apply exnHandler_trace_mem
          simp

end HerServe

namespace HerServe

/-- The `tests_failed` run: with the backup and write succeeding, the test
command exiting non-zero, and the rollback copy succeeding, the outcome is
`tests_failed` carrying the test command's result, the target is back to
its pre-call content, and no publish command was ever invoked (only
`pytest` is appended to the command log). -/
theorem applyCore_testsFailed (cfg : Config) (o : Oracle) (t : Path)
    (v g : String) (s : SysState) (c : String) (u : CmdOut)
    (hold : fsLookup s.fs t = some c)
    (hbt : mkBackupPath t ≠ t)
    (hb : o.backupFault = none)
    (hw : o.writeFault = none)
    (hp : o.pytestRun = CmdBehavior.returns u)
    (hrc : ¬ u.returncode = 0)
    (hrt : o.restoreTestsFault = none) :
    (applyCore cfg o t (mkBackupPath t) v g s).1 =
      UpdateResult.testsFailed
        { run := { cmd := "pytest", returncode := u.returncode,
                   stdout := u.stdout, stderr := u.stderr },
          success := false } ∧
      fsLookup (applyCore cfg o t (mkBackupPath t) v g s).2.fs t = some c ∧
      (applyCore cfg o t (mkBackupPath t) v g s).2.cmdLog = s.cmdLog ++ ["pytest"] := by
  set b := mkBackupPath t with hbdef
  have hz2 : (u.returncode == 0) = false := by simp [hrc]
  have hback : fsLookup (fsWrite (fsWrite s.fs b c) t v) b = some c := by
    rw [fsLookup_fsWrite_ne _ _ _ _ hbt]
    exact fsLookup_fsWrite_self _ _ _
  simp only [applyCore, copy2, hb, hold, writeText, hw, runTests, runCmd, hp,
    joinWords_pytest]
  simp only [hz2, Bool.not_false, if_true]
  simp only [onTestsFailed, copy2, hrt]
  rw [hback]
  refine ⟨?_, ?_, ?_⟩
  · trivial
  · exact fsLookup_fsWrite_self _ _ _
  · simp

/-- The successful run: backup, write and tests succeed and none of the
three publish steps is fatal; the outcome is `ok` carrying the passing test
result and the successful publish result with all three step results, the
target holds the submitted content, and the command log records `pytest`
and the three git steps in order. -/
theorem applyCore_ok (cfg : Config) (o : Oracle) (t : Path)
    (v g : String) (s : SysState) (c : String) (u a d p : CmdOut)
    (hold : fsLookup s.fs t = some c)
    (hb : o.backupFault = none)
    (hw : o.writeFault = none)
    (hp : o.pytestRun = CmdBehavior.returns u)
    (hz : u.returncode = 0)
    (ha : o.gitAddRun = CmdBehavior.returns a)
    (hfa : fatalRes (mkCmdResult "git add ." a) = false)
    (hc : o.gitCommitRun = CmdBehavior.returns d)
    (hfc : fatalRes (mkCmdResult ("git commit -m " ++ g) d) = false)
    (hpu : o.gitPushRun = CmdBehavior.returns p)
    (hfp : fatalRes (mkCmdResult ("git push origin " ++ cfg.updateBranch) p) = false) :
    (applyCore cfg o t (mkBackupPath t) v g s).1 =
      UpdateResult.ok
        { run := { cmd := "pytest", returncode := u.returncode,
                   stdout := u.stdout, stderr := u.stderr },
          success := true }
        { success := true, step := none,
          log := [mkCmdResult "git add ." a,
                  mkCmdResult ("git commit -m " ++ g) d,
                  mkCmdResult ("git push origin " ++ cfg.updateBranch) p] } ∧
      fsLookup (applyCore cfg o t (mkBackupPath t) v g s).2.fs t = some v ∧
      (applyCore cfg o t (mkBackupPath t) v g s).2.cmdLog =
        s.cmdLog ++ ["pytest", "git add .", "git commit -m " ++ g,
          "git push origin " ++ cfg.updateBranch] := by
  set b := mkBackupPath t with hbdef
  have hz2 : (u.returncode == 0) = true := by simp [hz]
  simp only [applyCore, copy2, hb, hold, writeText, hw, runTests, runCmd, hp,
    joinWords_pytest]
  simp only [hz2, Bool.not_true, Bool.false_eq_true, if_false]
  simp only [onGitStage]
  rw [gitCommitAndPush_eq cfg o g _ a d p ha hc hpu]
  simp only [hfa, hfc, hfp, Bool.false_eq_true, if_false, Bool.not_true]
  refine ⟨?_, ?_, ?_⟩
  · trivial
  · exact fsLookup_fsWrite_self _ _ _
  · simp

end HerServe

namespace HerServe

/-- C1 (corrected): atomicity of an update attempt, amended with the two
provisos the code forces: the rollback copy operations themselves must not
fault, and no stale backup file for the target may pre-exist in the case
where the backup copy step itself faults (the handler would restore the
stale backup over the target). Then for every call the target's content
after the call is the submitted content exactly when the outcome is `ok`,
and its pre-call content on every other outcome. (`cfg.rootDir ≠ []` says
the project root is not the filesystem root `/`.) -/
theorem C1_atomicity_amended (cfg : Config) (o : Oracle) (rel : List String)
    (v g : String) (s : SysState)
    (hroot : cfg.rootDir ≠ [])
    (hrt : o.restoreTestsFault = none)
    (hrg : o.restoreGitFault = none)
    (hre : o.restoreExnFault = none)
    (hstale : o.backupFault = none ∨
      fsLookup s.fs (mkBackupPath (targetOf cfg rel)) = none) :
    fsLookup (applyFileUpdate cfg o rel v g s).2.fs (targetOf cfg rel) =
      (if (applyFileUpdate cfg o rel v g s).1.isOk then some v
       else fsLookup s.fs (targetOf cfg rel)) := by
  cases hex : fsLookup s.fs (targetOf cfg rel) with
  | none =>
    rw [applyFileUpdate_not_found cfg o rel v g s hex]
    simp [UpdateResult.isOk, hex]
  | some c =>
    by_cases hin : cfg.rootDir <+: targetOf cfg rel
    · rw [applyFileUpdate_eq_core cfg o rel v g s (by simp [hex]) hin]
      have hbt : mkBackupPath (targetOf cfg rel) ≠ targetOf cfg rel :=
        mkBackupPath_ne _ (prefix_ne_nil _ _ hin hroot)
      exact applyCore_content cfg o _ v g s c hex hbt hrt hrg hre hstale
    · rw [applyFileUpdate_outside cfg o rel v g s (by simp [hex]) hin]
      simp [UpdateResult.isOk, hex]

/-- C1, witness: a fault-free update of `/home/her/a.txt`. -/
theorem C1_atomicity_witness :
    fsLookup (applyFileUpdate cfgW oGood ["a.txt"] "B" "m" stW).2.fs
        (targetOf cfgW ["a.txt"]) =
      (if (applyFileUpdate cfgW oGood ["a.txt"] "B" "m" stW).1.isOk then some "B"
       else fsLookup stW.fs (targetOf cfgW ["a.txt"])) :=
  C1_atomicity_amended cfgW oGood ["a.txt"] "B" "m" stW (by decide) rfl rfl rfl
    (Or.inl rfl)

/-- C1, counterexample to the claim as stated: the test run raises and the
best-effort restore itself faults; the outcome is not `ok`, yet the target
holds the submitted content `"B"` instead of its pre-call content `"A"`. -/
theorem C1_atomicity_cex :
    (applyFileUpdate cfgW oRaiseRestoreFault ["a.txt"] "B" "m" stW).1.isOk = false ∧
      fsLookup (applyFileUpdate cfgW oRaiseRestoreFault ["a.txt"] "B" "m" stW).2.fs
        (targetOf cfgW ["a.txt"]) = some "B" ∧
      fsLookup stW.fs (targetOf cfgW ["a.txt"]) = some "A" := by decide

/-- C2 (corrected): path containment, amended with the proviso that a file
exists at the escaping resolved path (otherwise the existence check, which
runs first, answers `file_not_found`). For every resolved target outside
the project root at which a file exists, the outcome is
`outside_project_root` and the state — filesystem, command log and trace —
is returned untouched. -/
theorem C2_path_containment_amended (cfg : Config) (o : Oracle)
    (rel : List String) (v g : String) (s : SysState) (c : String)
    (hout : ¬ cfg.rootDir <+: targetOf cfg rel)
    (hex : fsLookup s.fs (targetOf cfg rel) = some c) :
    applyFileUpdate cfg o rel v g s =
      (UpdateResult.outsideProjectRoot (pathStr (targetOf cfg rel)), s) :=
  applyFileUpdate_outside cfg o rel v g s (by simp [hex]) hout

/-- C2, witness: `../../etc/pw` escapes `/home/her` and exists. -/
theorem C2_path_containment_witness :
    applyFileUpdate cfgW oGood ["..", "..", "etc", "pw"] "B" "m" stW =
      (UpdateResult.outsideProjectRoot "/etc/pw", stW) :=
  C2_path_containment_amended cfgW oGood ["..", "..", "etc", "pw"] "B" "m" stW
    "X" (by decide) (by decide)

/-- C2, counterexample to the claim as stated: `../../etc/nope` also
escapes the project root, but no file exists there, so the outcome is
`file_not_found`, not `outside_project_root`. -/
theorem C2_path_containment_cex :
    ¬ cfgW.rootDir <+: targetOf cfgW ["..", "..", "etc", "nope"] ∧
      (applyFileUpdate cfgW oGood ["..", "..", "etc", "nope"] "B" "m" stW).1 =
        UpdateResult.fileNotFound "/etc/nope" := by decide

end HerServe

namespace HerServe

/-- C3 (corrected): validation gate, amended with the proviso that the
rollback copy after the failing tests succeeds (a faulting rollback turns
the outcome into `exception` instead). When the run reaches the test
command and it exits non-zero, the outcome is `tests_failed` carrying that
command's captured result, the target is back to its pre-call content, and
the publish stage is never invoked — the command log grows by exactly
`pytest`. -/
theorem C3_validation_gate_amended (cfg : Config) (o : Oracle)
    (rel : List String) (v g : String) (s : SysState) (c : String) (u : CmdOut)
    (hroot : cfg.rootDir ≠ [])
    (hex : fsLookup s.fs (targetOf cfg rel) = some c)
    (hin : cfg.rootDir <+: targetOf cfg rel)
    (hb : o.backupFault = none)
    (hw : o.writeFault = none)
    (hp : o.pytestRun = CmdBehavior.returns u)
    (hrc : ¬ u.returncode = 0)
    (hrt : o.restoreTestsFault = none) :
    (applyFileUpdate cfg o rel v g s).1 =
      UpdateResult.testsFailed
        { run := { cmd := "pytest", returncode := u.returncode,
                   stdout := u.stdout, stderr := u.stderr },
          success := false } ∧
      fsLookup (applyFileUpdate cfg o rel v g s).2.fs (targetOf cfg rel) = some c ∧
      (applyFileUpdate cfg o rel v g s).2.cmdLog = s.cmdLog ++ ["pytest"] := by
  rw [applyFileUpdate_eq_core cfg o rel v g s (by simp [hex]) hin]
  exact applyCore_testsFailed cfg o _ v g s c u hex
    (mkBackupPath_ne _ (prefix_ne_nil _ _ hin hroot)) hb hw hp hrc hrt

/-- C3, witness: tests exit 1 under a fault-free filesystem. -/
theorem C3_validation_gate_witness :
    (applyFileUpdate cfgW oTestsFail ["a.txt"] "B" "m" stW).1 =
      UpdateResult.testsFailed
        { run := { cmd := "pytest", returncode := 1,
                   stdout := "1 failed", stderr := "" },
          success := false } ∧
      fsLookup (applyFileUpdate cfgW oTestsFail ["a.txt"] "B" "m" stW).2.fs
        (targetOf cfgW ["a.txt"]) = some "A" ∧
      (applyFileUpdate cfgW oTestsFail ["a.txt"] "B" "m" stW).2.cmdLog =
        stW.cmdLog ++ ["pytest"] :=
  C3_validation_gate_amended cfgW oTestsFail ["a.txt"] "B" "m" stW "A"
    ⟨1, "1 failed", ""⟩ (by decide) (by decide) (by decide) rfl rfl rfl
    (by decide) rfl

/-- C3, counterexample to the claim as stated: the tests exit non-zero but
the rollback copy faults, so the call returns `exception`, not
`tests_failed`. -/
theorem C3_validation_gate_cex :
    oTestsFailRestoreFault.pytestRun =
      CmdBehavior.returns ⟨1, "1 failed", ""⟩ ∧
      (applyFileUpdate cfgW oTestsFailRestoreFault ["a.txt"] "B" "m" stW).1 =
        UpdateResult.exceptionErr "disk full" := by decide

/-- C8 (confirmed): for every target path at which no file exists, the call
returns `file_not_found` with the resolved path as detail and the state —
filesystem (no file created, no backup), command log (no command run) and
trace — is returned untouched. -/
theorem C8_file_not_found (cfg : Config) (o : Oracle) (rel : List String)
    (v g : String) (s : SysState)
    (hnone : fsLookup s.fs (targetOf cfg rel) = none) :
    applyFileUpdate cfg o rel v g s =
      (UpdateResult.fileNotFound (pathStr (targetOf cfg rel)), s) :=
  applyFileUpdate_not_found cfg o rel v g s hnone

/-- C8, witness: no file exists at `/home/her/nope.txt`. -/
theorem C8_file_not_found_witness :
    applyFileUpdate cfgW oGood ["nope.txt"] "B" "m" stW =
      (UpdateResult.fileNotFound "/home/her/nope.txt", stW) :=
  C8_file_not_found cfgW oGood ["nope.txt"] "B" "m" stW (by decide)

/-- C9 (confirmed, implicit): the existence check runs before the
containment check, so a resolved path with no file — even one escaping the
project root — yields `file_not_found` (and in particular not
`outside_project_root`), with the state untouched. -/
theorem C9_exists_before_containment (cfg : Config) (o : Oracle)
    (rel : List String) (v g : String) (s : SysState)
    (hnone : fsLookup s.fs (targetOf cfg rel) = none)
    (hout : ¬ cfg.rootDir <+: targetOf cfg rel) :
    (applyFileUpdate cfg o rel v g s).1 =
      UpdateResult.fileNotFound (pathStr (targetOf cfg rel)) ∧
      (applyFileUpdate cfg o rel v g s).1 ≠
        UpdateResult.outsideProjectRoot (pathStr (targetOf cfg rel)) ∧
      (applyFileUpdate cfg o rel v g s).2 = s := by
  rw [applyFileUpdate_not_found cfg o rel v g s hnone]
  exact ⟨rfl, by simp, rfl⟩

/-- C9, witness: `../../etc/nope` escapes the root and does not exist; the
outcome is `file_not_found`. -/
theorem C9_exists_before_containment_witness :
    (applyFileUpdate cfgW oGood ["..", "..", "etc", "nope"] "B" "m" stW).1 =
      UpdateResult.fileNotFound "/etc/nope" ∧
      (applyFileUpdate cfgW oGood ["..", "..", "etc", "nope"] "B" "m" stW).1 ≠
        UpdateResult.outsideProjectRoot "/etc/nope" ∧
      (applyFileUpdate cfgW oGood ["..", "..", "etc", "nope"] "B" "m" stW).2 = stW :=
  C9_exists_before_containment cfgW oGood ["..", "..", "etc", "nope"] "B" "m"
    stW (by decide) (by decide)

end HerServe

namespace HerServe

/-- C4 (confirmed): no-op commit tolerance. When the commit step exits
non-zero but its (lowercased) failure text contains `"nothing to commit"`,
the publish sequence continues to the push step and still reports success;
in particular, applying content identical to the target's current content
under such an environment yields `ok` — not `git_failed` — with all three
git steps invoked after `pytest`. -/
theorem C4_noop_commit_ok (cfg : Config) (o : Oracle) (rel : List String)
    (g : String) (s : SysState) (c : String) (u a d p : CmdOut)
    (hex : fsLookup s.fs (targetOf cfg rel) = some c)
    (hin : cfg.rootDir <+: targetOf cfg rel)
    (hb : o.backupFault = none)
    (hw : o.writeFault = none)
    (hp : o.pytestRun = CmdBehavior.returns u)
    (hz : u.returncode = 0)
    (ha : o.gitAddRun = CmdBehavior.returns a)
    (hza : a.returncode = 0)
    (hc : o.gitCommitRun = CmdBehavior.returns d)
    (hdz : ¬ d.returncode = 0)
    (hmark : containsSubstr (lowerStr d.stderr) "nothing to commit" = true)
    (hpu : o.gitPushRun = CmdBehavior.returns p)
    (hpz : p.returncode = 0) :
    (applyFileUpdate cfg o rel c g s).1 =
      UpdateResult.ok
        { run := { cmd := "pytest", returncode := u.returncode,
                   stdout := u.stdout, stderr := u.stderr },
          success := true }
        { success := true, step := none,
          log := [mkCmdResult "git add ." a,
                  mkCmdResult ("git commit -m " ++ g) d,
                  mkCmdResult ("git push origin " ++ cfg.updateBranch) p] } ∧
      fsLookup (applyFileUpdate cfg o rel c g s).2.fs (targetOf cfg rel) =
        some c ∧
      (applyFileUpdate cfg o rel c g s).2.cmdLog =
        s.cmdLog ++ ["pytest", "git add .", "git commit -m " ++ g,
          "git push origin " ++ cfg.updateBranch] := by
  rw [applyFileUpdate_eq_core cfg o rel c g s (by simp [hex]) hin]
  refine applyCore_ok cfg o _ c g s c u a d p hex hb hw hp hz ha ?_ hc ?_ hpu ?_
  · simp [fatalRes, mkCmdResult, hza]
  · simp [fatalRes, mkCmdResult, hmark]
  · simp [fatalRes, mkCmdResult, hpz]

/-- C4, witness: rewriting `/home/her/a.txt` with its current content `"A"`
while the commit step reports "nothing to commit" with exit 1. -/
theorem C4_noop_commit_witness :
    (applyFileUpdate cfgW oCommitNothing ["a.txt"] "A" "m" stW).1 =
      UpdateResult.ok
        { run := { cmd := "pytest", returncode := 0, stdout := "", stderr := "" },
          success := true }
        { success := true, step := none,
          log := [mkCmdResult "git add ." ⟨0, "", ""⟩,
                  mkCmdResult "git commit -m m"
                    ⟨1, "", "On branch main\nNothing to commit, working tree clean"⟩,
                  mkCmdResult "git push origin main" ⟨0, "", ""⟩] } ∧
      fsLookup (applyFileUpdate cfgW oCommitNothing ["a.txt"] "A" "m" stW).2.fs
        (targetOf cfgW ["a.txt"]) = some "A" ∧
      (applyFileUpdate cfgW oCommitNothing ["a.txt"] "A" "m" stW).2.cmdLog =
        stW.cmdLog ++ ["pytest", "git add .", "git commit -m m",
          "git push origin main"] :=
  C4_noop_commit_ok cfgW oCommitNothing ["a.txt"] "m" stW "A" ⟨0, "", ""⟩
    ⟨0, "", ""⟩ ⟨1, "", "On branch main\nNothing to commit, working tree clean"⟩
    ⟨0, "", ""⟩ (by decide) (by decide) rfl rfl rfl (by decide) rfl (by decide)
    rfl (by decide) (by decide) rfl (by decide)

end HerServe

namespace HerServe

/-- C5 (confirmed): total, tagged error handling. Every call's outcome is
one of the six tags of the taxonomy (the orchestrator is a total function —
no fault propagates); and whenever the run raises inside the `try` block,
the outcome is `exception` carrying the fault's text — regardless of
whether the handler's own best-effort restore faults (its failure is
swallowed) — and, unless the backup copy was itself the faulting step, the
restore onto the target has been attempted. -/
theorem C5_exception_taxonomy (cfg : Config) (o : Oracle) (rel : List String)
    (v g : String) (s : SysState) (c m : String)
    (hex : fsLookup s.fs (targetOf cfg rel) = some c)
    (hin : cfg.rootDir <+: targetOf cfg rel)
    (hf : faultOf o g cfg.updateBranch = some m) :
    (applyFileUpdate cfg o rel v g s).1 = UpdateResult.exceptionErr m ∧
      (!(o.backupFault.isNone) ||
        restoreAttempted (applyFileUpdate cfg o rel v g s).2
          (mkBackupPath (targetOf cfg rel)) (targetOf cfg rel)) = true ∧
      (∀ (cfg2 : Config) (o2 : Oracle) (rel2 : List String) (v2 g2 : String)
          (s2 : SysState),
        (applyFileUpdate cfg2 o2 rel2 v2 g2 s2).1.tag = "ok" ∨
          (applyFileUpdate cfg2 o2 rel2 v2 g2 s2).1.tag = "tests_failed" ∨
          (applyFileUpdate cfg2 o2 rel2 v2 g2 s2).1.tag = "git_failed" ∨
          (applyFileUpdate cfg2 o2 rel2 v2 g2 s2).1.tag = "file_not_found" ∨
          (applyFileUpdate cfg2 o2 rel2 v2 g2 s2).1.tag = "outside_project_root" ∨
          (applyFileUpdate cfg2 o2 rel2 v2 g2 s2).1.tag = "exception") := by
  rw [applyFileUpdate_eq_core cfg o rel v g s (by simp [hex]) hin]
  refine ⟨(applyCore_exception cfg o _ v g s c m hex hf).1,
    (applyCore_exception cfg o _ v g s c m hex hf).2, ?_⟩
  intro cfg2 o2 rel2 v2 g2 s2
  exact tag_mem_six _

/-- C5, witness: the test run raises `"boom"`; the outcome is `exception`
with that text and the restore was attempted. -/
theorem C5_exception_taxonomy_witness :
    (applyFileUpdate cfgW oRaise ["a.txt"] "B" "m" stW).1 =
      UpdateResult.exceptionErr "boom" ∧
      (!(oRaise.backupFault.isNone) ||
        restoreAttempted (applyFileUpdate cfgW oRaise ["a.txt"] "B" "m" stW).2
          (mkBackupPath (targetOf cfgW ["a.txt"])) (targetOf cfgW ["a.txt"])) = true ∧
      (∀ (cfg2 : Config) (o2 : Oracle) (rel2 : List String) (v2 g2 : String)
          (s2 : SysState),
        (applyFileUpdate cfg2 o2 rel2 v2 g2 s2).1.tag = "ok" ∨
          (applyFileUpdate cfg2 o2 rel2 v2 g2 s2).1.tag = "tests_failed" ∨
          (applyFileUpdate cfg2 o2 rel2 v2 g2 s2).1.tag = "git_failed" ∨
          (applyFileUpdate cfg2 o2 rel2 v2 g2 s2).1.tag = "file_not_found" ∨
          (applyFileUpdate cfg2 o2 rel2 v2 g2 s2).1.tag = "outside_project_root" ∨
          (applyFileUpdate cfg2 o2 rel2 v2 g2 s2).1.tag = "exception") :=
  C5_exception_taxonomy cfgW oRaise ["a.txt"] "B" "m" stW "A" "boom"
    (by decide) (by decide) rfl

/-- C6 (confirmed, spec-modelled invocation surface): with the auto-update
feature flag off, both the gated apply and the gated plan reject with the
distinct disabled result and return the state untouched — no filesystem
mutation and no command-runner invocation. -/
theorem C6_disabled_gate (cfg : Config) (o : Oracle) (rel : List String)
    (v g tf goal : String) (s : SysState)
    (hoff : cfg.autoUpdateEnabled = false) :
    applyGate cfg o rel v g s = (ApplyGateResult.disabled, s) ∧
      planGate cfg tf goal s = (PlanGateResult.disabled, s) := by
  simp [applyGate, planGate, hoff]

/-- C6, witness: the flag is off in `cfgOff`. -/
theorem C6_disabled_gate_witness :
    applyGate cfgOff oGood ["a.txt"] "B" "m" stW =
      (ApplyGateResult.disabled, stW) ∧
      planGate cfgOff "a.txt" "improve" stW = (PlanGateResult.disabled, stW) :=
  C6_disabled_gate cfgOff oGood ["a.txt"] "B" "m" "a.txt" "improve" stW rfl

end HerServe

namespace HerServe

/-- C7 (corrected): publish sequencing and early abort, amended in one
point: the "nothing to commit" tolerance is textual and is checked at
every step, not only at the commit step — a non-zero exit whose lowercased
stderr contains the marker does not abort, whichever step produced it.
With no launch faults, the stage runs stage-all, commit, push in that
order; each executed step's result is recorded in order; the first fatal
result (non-zero exit without the marker) aborts the sequence immediately,
identifying the failing step and returning the log of steps run so far. -/
theorem C7_publish_sequencing_amended (cfg : Config) (o : Oracle) (g : String)
    (s : SysState) (a c p : CmdOut)
    (ha : o.gitAddRun = CmdBehavior.returns a)
    (hc : o.gitCommitRun = CmdBehavior.returns c)
    (hp : o.gitPushRun = CmdBehavior.returns p) :
    gitCommitAndPush cfg o g s =
      (let addRes := mkCmdResult "git add ." a
       let commitRes := mkCmdResult ("git commit -m " ++ g) c
       let pushRes := mkCmdResult ("git push origin " ++ cfg.updateBranch) p
       if fatalRes addRes then
         ({ s with cmdLog := s.cmdLog ++ ["git add ."] },
          Except.ok { success := false, step := some "git add .", log := [addRes] })
       else if fatalRes commitRes then
         ({ s with cmdLog := s.cmdLog ++ ["git add .", "git commit -m " ++ g] },
          Except.ok { success := false, step := some ("git commit -m " ++ g),
                      log := [addRes, commitRes] })
       else if fatalRes pushRes then
         ({ s with cmdLog := s.cmdLog ++
              ["git add .", "git commit -m " ++ g,
               "git push origin " ++ cfg.updateBranch] },
          Except.ok { success := false,
                      step := some ("git push origin " ++ cfg.updateBranch),
                      log := [addRes, commitRes, pushRes] })
       else
         ({ s with cmdLog := s.cmdLog ++
              ["git add .", "git commit -m " ++ g,
               "git push origin " ++ cfg.updateBranch] },
          Except.ok { success := true, step := none,
                      log := [addRes, commitRes, pushRes] })) :=
  gitCommitAndPush_eq cfg o g s a c p ha hc hp

/-- C7, witness: a fatal commit step (exit 1, no marker text) aborts before
the push; the failure identifies the commit step and the log holds the two
executed steps. -/
theorem C7_publish_sequencing_witness :
    gitCommitAndPush cfgW
      { oGood with gitCommitRun := CmdBehavior.returns ⟨1, "", "remote rejected"⟩ }
      "m" stW =
      ({ stW with cmdLog := ["git add .", "git commit -m m"] },
       Except.ok
         { success := false
           step := some "git commit -m m"
           log := [mkCmdResult "git add ." ⟨0, "", ""⟩,
                   mkCmdResult "git commit -m m" ⟨1, "", "remote rejected"⟩] }) := by
  have h := C7_publish_sequencing_amended cfgW
    { oGood with gitCommitRun := CmdBehavior.returns ⟨1, "", "remote rejected"⟩ }
    "m" stW ⟨0, "", ""⟩ ⟨1, "", "remote rejected"⟩ ⟨0, "", ""⟩ rfl rfl rfl
  rw [h]
  decide

/-- C7, counterexample to the claim as stated: the stage-all step exits
non-zero — not a commit no-op — yet the sequence is not aborted: the
tolerance matched its stderr text, all three steps ran and the stage
reports success. -/
theorem C7_publish_sequencing_cex :
    oAddNothing.gitAddRun = CmdBehavior.returns
      ⟨1, "", "nothing to commit, working tree clean"⟩ ∧
      (gitCommitAndPush cfgW oAddNothing "m" stW).1.cmdLog =
        ["git add .", "git commit -m m", "git push origin main"] ∧
      (gitCommitAndPush cfgW oAddNothing "m" stW).2 =
        Except.ok
          { success := true
            step := none
            log := [mkCmdResult "git add ."
                      ⟨1, "", "nothing to commit, working tree clean"⟩,
                    mkCmdResult "git commit -m m" ⟨0, "", ""⟩,
                    mkCmdResult "git push origin main" ⟨0, "", ""⟩] } := by
  decide

/-- C10 (confirmed): the reporter's diagnostics return one
`needs_attention` action per failing health predicate and exactly one `ok`
action when none fails; the returned actions are appended to the state's
history, and none of the reporter's operations (recording an error, running
diagnostics, healing) ever truncates the history — the prior history stays
a prefix. -/
theorem C10_diagnostics (st : SelfHealState) (e : String) :
    (runBasicDiagnostics st).1 =
      (match st.openaiOk, st.firestoreOk with
       | true, true => [okAction]
       | false, true => [openaiAction]
       | true, false => [firestoreAction]
       | false, false => [openaiAction, firestoreAction]) ∧
      (runBasicDiagnostics st).2.history =
        st.history ++ (runBasicDiagnostics st).1 ∧
      st.history <+: (runBasicDiagnostics st).2.history ∧
      st.history <+: (recordError st e).history ∧
      st.history <+: (heal st).2.history := by
  cases ho : st.openaiOk <;> cases hfi : st.firestoreOk <;>
    simp [runBasicDiagnostics, recordError, heal, ho, hfi, okAction,
      openaiAction, firestoreAction, List.prefix_append]

/-- C10, witness: with both health predicates failing, the diagnostics
report the two `needs_attention` actions and append them to the history. -/
theorem C10_diagnostics_witness :
    (runBasicDiagnostics stHealW).1 = [openaiAction, firestoreAction] ∧
      (runBasicDiagnostics stHealW).2.history =
        stHealW.history ++ (runBasicDiagnostics stHealW).1 ∧
      stHealW.history <+: (runBasicDiagnostics stHealW).2.history ∧
      stHealW.history <+: (recordError stHealW "oops").history ∧
      stHealW.history <+: (heal stHealW).2.history :=
  C10_diagnostics stHealW "oops"

end HerServe
